import Mathlib

/-!
# Jurassic Parking — formal model of `src/index.js`

A shallow embedding of the vehicle-servicing pipeline: fee calculation,
job-load assignment, commission calculation and presentation.  Exact
decimal values (the `BigNumber` values of the source) are modelled as
rationals (`ℚ`): `BigNumber` addition, subtraction and multiplication
are exact, and the one division in the pipeline is modelled with the
configured rounding (5 decimal places, round half away from zero, from
`BigNumber.config` on line 5 of the source).

Thrown JS errors are modelled with `Except`, carrying the JS error class
name and message.  In-place mutation of the caller's arrays (JS
`Array.prototype.sort` and `splice` in `assignJobLoads`) is modelled by
explicit "contents after the call" definitions.
-/

namespace JurassicParking

/-- A thrown JS error: its class name (`e.name`) and message. -/
structure JSError where
  name : String
  message : String
deriving DecidableEq, Repr

/-- `car.fuel` in the source: `{ capacity, level }`. -/
structure Fuel where
  capacity : ℚ
  level : ℚ
deriving DecidableEq, Repr

/-- A vehicle of the input queue: `{ licencePlate, size, fuel }`. -/
structure Vehicle where
  licencePlate : String
  size : String
  fuel : Fuel
deriving DecidableEq, Repr

/-- An entry of the `parkingRates` table: `{ size, rate }`. -/
structure ParkingRate where
  size : String
  rate : ℚ
deriving DecidableEq, Repr

/-- An employee of the pool: `{ name, commissionPct }`. -/
structure Employee where
  name : String
  commissionPct : ℚ
deriving DecidableEq, Repr

/-- Output of `calculateServiceFees` per car: the car spread together with
`fuelAdded` and `netTotal` (`{ ...car, fuelAdded, netTotal }`). -/
structure PricedJob where
  licencePlate : String
  size : String
  fuel : Fuel
  fuelAdded : ℚ
  netTotal : ℚ
deriving DecidableEq, Repr

/-- An entry of the `jobLoads` array in `assignJobLoads`:
`{ ...emp, numJobs }`. -/
structure JobLoad where
  name : String
  commissionPct : ℚ
  numJobs : Nat
deriving DecidableEq, Repr

/-- Output of `assignJobLoads` per job: `{ ...emp, ...job }` where `emp`
is a `JobLoad` and `job` a `PricedJob` (no key collisions, so the spread
is a plain union of fields). -/
structure AssignedJob where
  name : String
  commissionPct : ℚ
  numJobs : Nat
  licencePlate : String
  size : String
  fuel : Fuel
  fuelAdded : ℚ
  netTotal : ℚ
deriving DecidableEq, Repr

/-- Output of `addEmployeeCommission` per job: `{ ...job, totalToPay }`. -/
structure PayableJob extends AssignedJob where
  totalToPay : ℚ
deriving DecidableEq, Repr

/-- Output of `makeMePretty` per job:
`{ licencePlate, employee: name, fuelAdded, price }`.  The source names
the employee-name key `employee`. -/
structure Receipt where
  licencePlate : String
  employee : String
  fuelAdded : ℚ
  price : ℚ
deriving DecidableEq, Repr

/-- Modelled from the spec: `src/params.js` is imported by `src/index.js`
but is not part of the snapshot.  The spec gives the default parking rate
table as small = 25, large = 35. -/
def defaultParkingRates : List ParkingRate :=
  [⟨"small", 25⟩, ⟨"large", 35⟩]

/-- Modelled from the spec: the default fuel price, 1.75 per unit, from
`src/params.js` (not in the snapshot). -/
def defaultFuelPricePerUnit : ℚ := 175 / 100

/-- `BigNumber` division result rounding: `DECIMAL_PLACES: 5`,
`ROUNDING_MODE: ROUND_HALF_UP` (round to 5 decimal places, ties away
from zero), configured on line 5 of the source.  Addition, subtraction
and multiplication are exact and need no rounding. -/
def round5 (x : ℚ) : ℚ :=
  if 0 ≤ x then ⌊x * 100000 + 1 / 2⌋ / 100000
  else -(⌊(-x) * 100000 + 1 / 2⌋ / 100000)

/-- `a.dividedBy(b)`: exact quotient rounded per the global config. -/
def bnDiv (a b : ℚ) : ℚ := round5 (a / b)

/-- `calculateUnitsToFuel` returns `{ unitsToFuel, totalFuelPrice }`. -/
structure FuelData where
  unitsToFuel : ℚ
  totalFuelPrice : ℚ
deriving DecidableEq, Repr

/-- `calculateUnitsToFuel(car)` (source lines 54–70): refuel iff
`fuelPct ≤ 10 && fuelPct ≥ 0` where `fuelPct = level * 100`; then
`unitsToFuel = capacity − capacity·level` and
`totalFuelPrice = unitsToFuel · fuelPricePerUnit`; otherwise both stay 0. -/
def calculateUnitsToFuel (fuelPricePerUnit : ℚ) (car : Vehicle) : FuelData :=
  let carLevel := car.fuel.level
  let carCapacity := car.fuel.capacity
  let fuelPct := carLevel * 100
  if fuelPct ≤ 10 ∧ 0 ≤ fuelPct then
    let unitsToFuel := carCapacity - carCapacity * carLevel
    { unitsToFuel := unitsToFuel,
      totalFuelPrice := unitsToFuel * fuelPricePerUnit }
  else
    { unitsToFuel := 0, totalFuelPrice := 0 }

/-- Price one car (the body of the `queue.map` callback in
`calculateServiceFees`, source lines 33–46).  The parking rate is
`parkingRates.filter(x => x.size === car.size)[0].rate`; when no rate
matches, `[0]` is `undefined` and the `.rate` access throws a
`TypeError`. -/
def priceCar (parkingRates : List ParkingRate) (fuelPricePerUnit : ℚ)
    (car : Vehicle) : Except JSError PricedJob :=
  match (parkingRates.filter (fun x => x.size == car.size)).head? with
  | none =>
      .error ⟨"TypeError", "Cannot read properties of undefined (reading 'rate')"⟩
  | some first =>
      let parkingRate := first.rate
      let fuelData := calculateUnitsToFuel fuelPricePerUnit car
      let totalToPay := fuelData.totalFuelPrice + parkingRate
      .ok { licencePlate := car.licencePlate, size := car.size, fuel := car.fuel,
            fuelAdded := fuelData.unitsToFuel, netTotal := totalToPay }

/-- `calculateServiceFees(queue)` (source lines 32–47): maps `priceCar`
over the queue in order; a throw inside the `map` callback propagates,
so the whole call fails with the first error and yields no partial
output. -/
def calculateServiceFees (parkingRates : List ParkingRate)
    (fuelPricePerUnit : ℚ) : List Vehicle → Except JSError (List PricedJob)
  | [] => .ok []
  | car :: rest =>
    match priceCar parkingRates fuelPricePerUnit car with
    | .error e => .error e
    | .ok job =>
      match calculateServiceFees parkingRates fuelPricePerUnit rest with
      | .error e => .error e
      | .ok tail => .ok (job :: tail)

/-- `calculateServiceFees` only reads the caller's array via
`Array.prototype.map`, which allocates a new array: the caller's `queue`
is unchanged after the call. -/
def calculateServiceFeesQueueAfter (queue : List Vehicle) : List Vehicle :=
  queue

/-- The employee sort comparator (source lines 80–82):
`(a, b) => b.commissionPct - a.commissionPct`, i.e. descending by
`commissionPct`.  `empGe a b` holds when `a` sorts no later than `b`. -/
def empGe (a b : Employee) : Prop := b.commissionPct ≤ a.commissionPct

instance : DecidableRel empGe := fun a b =>
  inferInstanceAs (Decidable (b.commissionPct ≤ a.commissionPct))

instance : IsTotal Employee empGe :=
  ⟨fun a b => le_total b.commissionPct a.commissionPct⟩

instance : IsTrans Employee empGe :=
  ⟨fun _ _ _ h1 h2 => le_trans h2 h1⟩

/-- The job sort comparator (source lines 85–87):
`(a, b) => b.netTotal.minus(a.netTotal)`, i.e. descending by `netTotal`. -/
def jobGe (a b : PricedJob) : Prop := b.netTotal ≤ a.netTotal

instance : DecidableRel jobGe := fun a b =>
  inferInstanceAs (Decidable (b.netTotal ≤ a.netTotal))

instance : IsTotal PricedJob jobGe :=
  ⟨fun a b => le_total b.netTotal a.netTotal⟩

instance : IsTrans PricedJob jobGe :=
  ⟨fun _ _ _ h1 h2 => le_trans h2 h1⟩

/-- `employees.sort(...)` (source lines 80–82).  JS `Array.prototype.sort`
is stable (ES2019), so the result is the unique stable descending order;
insertion sort with `empGe` (which keeps an earlier element in front of a
tied later one) computes exactly that list. -/
def sortEmployees (employees : List Employee) : List Employee :=
  List.insertionSort empGe employees

/-- `queue.sort(...)` (source lines 85–87), stable descending by
`netTotal`. -/
def sortQueue (queue : List PricedJob) : List PricedJob :=
  List.insertionSort jobGe queue

/-- Source line 96:
`chunkSize = jobsPerEmployee > 1 ? Math.floor(jobsPerEmployee) : 1`
with `jobsPerEmployee = totalJobs / totalEmployees` as a JS float.
For `totalEmployees > 0` the float comparison `jobsPerEmployee > 1` holds
exactly when `totalJobs > totalEmployees`, and `Math.floor` of the ratio
is natural division.  (With `totalEmployees = 0` the JS value is
`Infinity` or `NaN`; that case is handled where `chunkSize` is consumed —
see `leftoverAdd` — and is invisible in `jobLoads`, which is then the map
over an empty employee list.) -/
def chunkSize (totalJobs totalEmployees : Nat) : Nat :=
  if totalJobs > totalEmployees then totalJobs / totalEmployees else 1

/-- Source line 101: `const isEvenQueue = !totalJobs % totalEmployees === 0`.
In JS `!` binds tighter than `%`, so this is
`((!totalJobs) % totalEmployees) === 0`, where `!totalJobs` coerces to
`1` if `totalJobs` is `0` and to `0` otherwise, and `x % 0` is `NaN`
(`NaN === 0` is false). -/
def isEvenQueue (totalJobs totalEmployees : Nat) : Bool :=
  if totalEmployees = 0 then false
  else ((if totalJobs = 0 then 1 else 0) % totalEmployees) == 0

/-- Source lines 101–111: when `!isEvenQueue`, compute
`leftoverJobs = totalJobs − chunkSize·totalEmployees` and, when it is
`> 0`, add it to `jobLoads[0].numJobs`.  With `totalEmployees = 0` the JS
`chunkSize` is `Infinity` (or the ratio is `NaN`), the product is `NaN`,
and `NaN > 0` is false, so nothing is added; that case is made explicit
here. -/
def leftoverAdd (totalJobs totalEmployees : Nat) (loads : List JobLoad) :
    List JobLoad :=
  if isEvenQueue totalJobs totalEmployees then loads
  else if totalEmployees = 0 then loads
  else
    let leftoverJobs : Int :=
      (totalJobs : Int) - (chunkSize totalJobs totalEmployees : Int) * (totalEmployees : Int)
    if 0 < leftoverJobs then
      match loads with
      | [] => []
      | first :: rest => { first with numJobs := first.numJobs + leftoverJobs.toNat } :: rest
    else loads

/-- `{ ...emp, ...job }` (source line 119): merge the employee fields of
the `JobLoad` with the fields of the consumed `PricedJob` (no key
collisions). -/
def mkAssigned (emp : JobLoad) (job : PricedJob) : AssignedJob :=
  { name := emp.name, commissionPct := emp.commissionPct, numJobs := emp.numJobs,
    licencePlate := job.licencePlate, size := job.size, fuel := job.fuel,
    fuelAdded := job.fuelAdded, netTotal := job.netTotal }

/-- The distribution loop (source lines 114–125): for each entry of
`jobLoads`, `splice` its `numJobs` jobs off the front of the queue and
merge the employee onto each; `break` as soon as the queue is empty.
Returns the pushed jobs together with what remains in the (spliced)
queue array. -/
def distribute : List JobLoad → List PricedJob → List AssignedJob × List PricedJob
  | [], queue => ([], queue)
  | emp :: rest, queue =>
      let empJobs := queue.take emp.numJobs
      let queueAfter := queue.drop emp.numJobs
      let here := empJobs.map (mkAssigned emp)
      if queueAfter.isEmpty then (here, queueAfter)
      else
        let (more, final) := distribute rest queueAfter
        (here ++ more, final)

/-- The `jobLoads` array right before the distribution loop (source lines
97–111): every sorted employee paired with `chunkSize`, then the leftover
adjustment. -/
def jobLoadsOf (employees : List Employee) (queue : List PricedJob) :
    List JobLoad :=
  leftoverAdd (sortQueue queue).length (sortEmployees employees).length
    ((sortEmployees employees).map fun emp =>
      ({ name := emp.name, commissionPct := emp.commissionPct,
         numJobs := chunkSize (sortQueue queue).length
           (sortEmployees employees).length } : JobLoad))

/-- The pair (pushed jobs, remaining queue) produced by the distribution
loop of `assignJobLoads`. -/
def distributeResult (employees : List Employee) (queue : List PricedJob) :
    List AssignedJob × List PricedJob :=
  distribute (jobLoadsOf employees queue) (sortQueue queue)

/-- `assignJobLoads(employees, queue)` (source lines 78–131): sort both
arrays, build `jobLoads`, run the distribution loop, and throw
`Error("UNASSIGNED JOBS STILL IN QUEUE!!!!")` if the queue is not empty
afterwards. -/
def assignJobLoads (employees : List Employee) (queue : List PricedJob) :
    Except JSError (List AssignedJob) :=
  if (distributeResult employees queue).2.length > 0 then
    .error ⟨"Error", "UNASSIGNED JOBS STILL IN QUEUE!!!!"⟩
  else
    .ok (distributeResult employees queue).1

/-- Contents of the caller's `queue` array after `assignJobLoads` returns
or throws: `Array.prototype.sort` reorders the array in place and each
`splice(0, n)` removes the first `n` elements from it, so the array ends
up holding exactly the undistributed tail of the sorted queue. -/
def assignJobLoadsQueueAfter (employees : List Employee)
    (queue : List PricedJob) : List PricedJob :=
  (distributeResult employees queue).2

/-- Contents of the caller's `employees` array after `assignJobLoads`:
`Array.prototype.sort` sorts it in place (the later `numJobs` mutation
happens on the fresh objects of `jobLoads`, not on the pool). -/
def assignJobLoadsEmployeesAfter (employees : List Employee) : List Employee :=
  sortEmployees employees

/-- The `console.warn` message for a negative commission percentage
(source lines 146–148). -/
def commissionWarning (job : AssignedJob) : String :=
  "Commission percentage " ++ toString job.commissionPct ++
    " out of range for " ++ job.name ++ ". Will skip commission payment."

/-- `addEmployeeCommission(jobLoads)` (source lines 138–155): one pass
over the jobs; `commissionToPay` starts at 0 and, unless
`commissionPct < 0` (which instead emits a `console.warn`), becomes
`netTotal.times(commissionPct).dividedBy(100)` — the division rounds per
the global config; `totalToPay = netTotal + commissionToPay`.  The warn
side effects are collected writer-style in order. -/
def addEmployeeCommission : List AssignedJob → List PayableJob × List String
  | [] => ([], [])
  | job :: restJobs =>
      let tail := addEmployeeCommission restJobs
      if job.commissionPct < 0 then
        ({ toAssignedJob := job, totalToPay := job.netTotal + 0 } :: tail.1,
         commissionWarning job :: tail.2)
      else
        ({ toAssignedJob := job,
           totalToPay := job.netTotal + bnDiv (job.netTotal * job.commissionPct) 100 } :: tail.1,
         tail.2)

/-- `addEmployeeCommission` only calls `jobLoads.map`; the caller's array
is unchanged after the call. -/
def addEmployeeCommissionInputAfter (jobLoads : List AssignedJob) :
    List AssignedJob :=
  jobLoads

/-- `makeMePretty(jobLoads)` (source lines 160–170): project each job to
`{ licencePlate, employee: name, fuelAdded, price: totalToPay }`.  The
`.toNumber()` calls convert the exact decimals to JS numbers at this
boundary; the values themselves are modelled exactly. -/
def makeMePretty (jobLoads : List PayableJob) : List Receipt :=
  jobLoads.map fun job =>
    { licencePlate := job.licencePlate, employee := job.name,
      fuelAdded := job.fuelAdded, price := job.totalToPay }

/-- `makeMePretty` only calls `jobLoads.map`; the caller's array is
unchanged after the call. -/
def makeMePrettyInputAfter (jobLoads : List PayableJob) : List PayableJob :=
  jobLoads

/-! ## Helper lemmas -/

/-- The operator-precedence slip on source line 101 makes the whole
leftover-redistribution branch unreachable: `leftoverAdd` never changes
the loads, for any job and employee counts. -/
theorem leftoverAdd_eq (totalJobs totalEmployees : Nat) (loads : List JobLoad) :
    leftoverAdd totalJobs totalEmployees loads = loads := by
  unfold leftoverAdd
  by_cases hEv : isEvenQueue totalJobs totalEmployees = true
  · rw [if_pos hEv]
  · rw [if_neg hEv]
    by_cases hE : totalEmployees = 0
    · rw [if_pos hE]
    · rw [if_neg hE]
      have hJ : totalJobs = 0 := by
        by_contra hJ
        apply hEv
        unfold isEvenQueue
        rw [if_neg hE, if_neg hJ]
        simp
      have hchunk : chunkSize totalJobs totalEmployees = 1 := by
        unfold chunkSize
        rw [if_neg (by omega)]
      have hneg : ¬ (0 < (totalJobs : Int) -
          (chunkSize totalJobs totalEmployees : Int) * (totalEmployees : Int)) := by
        rw [hchunk, hJ]
        push_cast
        omega
      simp only [if_neg hneg]

theorem length_sortEmployees (employees : List Employee) :
    (sortEmployees employees).length = employees.length :=
  List.length_insertionSort empGe employees

theorem length_sortQueue (queue : List PricedJob) :
    (sortQueue queue).length = queue.length :=
  List.length_insertionSort jobGe queue

/-- `jobLoadsOf` is just the sorted employees each paired with the chunk
size, since the leftover branch is dead code. -/
theorem jobLoadsOf_eq (employees : List Employee) (queue : List PricedJob) :
    jobLoadsOf employees queue = (sortEmployees employees).map fun emp =>
      ({ name := emp.name, commissionPct := emp.commissionPct,
         numJobs := chunkSize queue.length employees.length } : JobLoad) := by
  unfold jobLoadsOf
  rw [leftoverAdd_eq, length_sortQueue, length_sortEmployees]

/-- When every load asks for exactly one job and there are at least as
many loads as jobs, the distribution loop pairs loads with jobs
one-to-one and empties the queue. -/
theorem distribute_ones (loads : List JobLoad) (queue : List PricedJob)
    (hone : ∀ l ∈ loads, l.numJobs = 1) (hlen : queue.length ≤ loads.length) :
    distribute loads queue = (List.zipWith mkAssigned loads queue, []) := by
  induction loads generalizing queue with
  | nil =>
      have : queue = [] := List.eq_nil_of_length_eq_zero (Nat.le_zero.mp hlen)
      subst this
      rfl
  | cons l rest ih =>
      have hl : l.numJobs = 1 := hone l (List.mem_cons_self l rest)
      cases queue with
      | nil => simp [distribute]
      | cons j qtail =>
          have hone' : ∀ x ∈ rest, x.numJobs = 1 :=
            fun x hx => hone x (List.mem_cons_of_mem l hx)
          have hlen' : qtail.length ≤ rest.length := by
            simpa using hlen
          simp only [distribute, hl, List.take_succ_cons, List.take_zero,
            List.drop_succ_cons, List.drop_zero, List.map_cons, List.map_nil,
            List.zipWith_cons_cons]
          cases qtail with
          | nil => simp
          | cons j2 q2 =>
              simp only [List.isEmpty_cons, ih _ hone' hlen']
              simp

/-- When the first load wants at least one job and the queue is
nonempty, the first pushed record merges the first load with the first
job of the queue. -/
theorem distribute_cons_head (l : JobLoad) (rest : List JobLoad)
    (j : PricedJob) (qtail : List PricedJob) (h : 0 < l.numJobs) :
    ∃ tail, (distribute (l :: rest) (j :: qtail)).1 = mkAssigned l j :: tail := by
  obtain ⟨m, hm⟩ : ∃ m, l.numJobs = m + 1 := ⟨l.numJobs - 1, by omega⟩
  simp only [distribute, hm, List.take_succ_cons, List.drop_succ_cons, List.map_cons]
  split
  · exact ⟨_, rfl⟩
  · exact ⟨_, rfl⟩

/-- A successful `assignJobLoads` call means the distribution loop
consumed the entire queue and returned exactly the pushed records. -/
theorem assignJobLoads_ok {employees : List Employee} {queue : List PricedJob}
    {out : List AssignedJob} (h : assignJobLoads employees queue = .ok out) :
    (distributeResult employees queue).1 = out ∧
    (distributeResult employees queue).2 = [] := by
  unfold assignJobLoads at h
  by_cases hlen : (distributeResult employees queue).2.length > 0
  · rw [if_pos hlen] at h
    exact absurd h (by simp)
  · rw [if_neg hlen] at h
    refine ⟨by injection h, ?_⟩
    exact List.eq_nil_of_length_eq_zero (by omega)

/-- When the distribution loop empties the queue, `assignJobLoads`
returns the pushed records. -/
theorem assignJobLoads_of_distribute_nil {employees : List Employee}
    {queue : List PricedJob} {jobs : List AssignedJob}
    (h : distributeResult employees queue = (jobs, [])) :
    assignJobLoads employees queue = .ok jobs := by
  unfold assignJobLoads
  rw [h]
  simp

/-- When the distribution loop leaves the queue nonempty,
`assignJobLoads` throws the unassigned-jobs `Error`. -/
theorem assignJobLoads_of_distribute_pos {employees : List Employee}
    {queue : List PricedJob} {res : List AssignedJob × List PricedJob}
    (h : distributeResult employees queue = res) (hpos : res.2 ≠ []) :
    assignJobLoads employees queue =
      .error ⟨"Error", "UNASSIGNED JOBS STILL IN QUEUE!!!!"⟩ := by
  unfold assignJobLoads
  rw [h, if_pos (List.length_pos.mpr hpos)]

/-- The head of the stably sorted employee list bears the pool's maximal
commission percentage. -/
theorem sortEmployees_head_ge (employees : List Employee) (e0 : Employee)
    (rest : List Employee) (h : sortEmployees employees = e0 :: rest) :
    ∀ e ∈ employees, e.commissionPct ≤ e0.commissionPct := by
  intro e he
  have hmem : e ∈ sortEmployees employees :=
    (List.mem_insertionSort empGe).mpr he
  rw [h] at hmem
  rcases List.mem_cons.mp hmem with rfl | hmem
  · exact le_refl _
  · have hs : List.Sorted empGe (e0 :: rest) := by
      rw [← h]; exact List.sorted_insertionSort empGe employees
    exact List.rel_of_sorted_cons hs e hmem

/-- The head of the stably sorted job list bears the queue's maximal
`netTotal`. -/
theorem sortQueue_head_ge (queue : List PricedJob) (j0 : PricedJob)
    (rest : List PricedJob) (h : sortQueue queue = j0 :: rest) :
    ∀ j ∈ queue, j.netTotal ≤ j0.netTotal := by
  intro j hj
  have hmem : j ∈ sortQueue queue :=
    (List.mem_insertionSort jobGe).mpr hj
  rw [h] at hmem
  rcases List.mem_cons.mp hmem with rfl | hmem
  · exact le_refl _
  · have hs : List.Sorted jobGe (j0 :: rest) := by
      rw [← h]; exact List.sorted_insertionSort jobGe queue
    exact List.rel_of_sorted_cons hs j hmem

/-- Every error thrown out of `calculateServiceFees` is the `TypeError`
from the failed rate lookup — no other throw site exists in it. -/
theorem calculateServiceFees_error_name (parkingRates : List ParkingRate)
    (fuelPricePerUnit : ℚ) (queue : List Vehicle) (e : JSError)
    (h : calculateServiceFees parkingRates fuelPricePerUnit queue = .error e) :
    e.name = "TypeError" := by
  induction queue with
  | nil => exact absurd h (by simp [calculateServiceFees])
  | cons car rest ih =>
      unfold calculateServiceFees at h
      split at h
      next heq =>
        unfold priceCar at heq
        split at heq
        · injection heq with heq'
          injection h with h'
          rw [← h', ← heq']
        · exact absurd heq (by simp)
      next =>
        split at h
        · injection h with h'
          subst h'
          exact ih (by assumption)
        · exact absurd h (by simp)

/-- If some vehicle of the queue has no matching parking rate, the whole
`calculateServiceFees` call throws (no partial output). -/
theorem calculateServiceFees_fails (parkingRates : List ParkingRate)
    (fuelPricePerUnit : ℚ) (queue : List Vehicle) (car : Vehicle)
    (hmem : car ∈ queue)
    (hnone : (parkingRates.filter fun x => x.size == car.size).head? = none) :
    ∃ e, calculateServiceFees parkingRates fuelPricePerUnit queue = .error e := by
  induction queue with
  | nil => exact absurd hmem (List.not_mem_nil car)
  | cons v rest ih =>
      unfold calculateServiceFees
      cases hp : priceCar parkingRates fuelPricePerUnit v with
      | error e => exact ⟨e, by simp [hp]⟩
      | ok job =>
          rcases List.mem_cons.mp hmem with rfl | hmem'
          · exfalso
            unfold priceCar at hp
            rw [hnone] at hp
            exact absurd hp (by simp)
          · obtain ⟨e, he⟩ := ih hmem'
            exact ⟨e, by simp [hp, he]⟩

/-! ## Claim theorems -/

/-- C1: the claim says `assignJobLoads` completes without error for every
nonempty employee pool and nonempty job list, with every job assigned
exactly once.  The code violates this: with two employees and three
priced jobs (a nonempty pool and a nonempty job list whose length is not
a multiple of the pool size), the dead leftover branch (source line 101)
leaves one job undistributed and the call throws the unassigned-jobs
`Error`.  This theorem evaluates the code at that failing input. -/
theorem assignJobLoads_throws_on_three_jobs_two_employees :
    assignJobLoads [⟨"Ian Malcolm", 11⟩, ⟨"Alan Grant", 15⟩]
      [⟨"A", "large", ⟨10, 1/2⟩, 0, 1⟩,
       ⟨"B", "large", ⟨10, 1/2⟩, 0, 2⟩,
       ⟨"C", "large", ⟨10, 1/2⟩, 0, 3⟩] =
    .error ⟨"Error", "UNASSIGNED JOBS STILL IN QUEUE!!!!"⟩ := by
  rfl

/-- C2: the claim says a strictly positive leftover is added in full to
the first (highest-commission) employee's count.  The code's own comment
(source lines 106–108) promises a 4-2-2-2 distribution for 10 jobs among
4 employees, but the precedence slip on line 101 makes the leftover
branch unreachable: only `chunkSize · totalEmployees = 8` jobs are
distributed and the call throws instead.  This theorem evaluates the
code at exactly the input of the code's own comment. -/
theorem assignJobLoads_throws_on_ten_jobs_four_employees :
    assignJobLoads
      [⟨"E1", 4⟩, ⟨"E2", 3⟩, ⟨"E3", 2⟩, ⟨"E4", 1⟩]
      [⟨"J0", "small", ⟨10, 1/2⟩, 0, 10⟩,
       ⟨"J1", "small", ⟨10, 1/2⟩, 0, 9⟩,
       ⟨"J2", "small", ⟨10, 1/2⟩, 0, 8⟩,
       ⟨"J3", "small", ⟨10, 1/2⟩, 0, 7⟩,
       ⟨"J4", "small", ⟨10, 1/2⟩, 0, 6⟩,
       ⟨"J5", "small", ⟨10, 1/2⟩, 0, 5⟩,
       ⟨"J6", "small", ⟨10, 1/2⟩, 0, 4⟩,
       ⟨"J7", "small", ⟨10, 1/2⟩, 0, 3⟩,
       ⟨"J8", "small", ⟨10, 1/2⟩, 0, 2⟩,
       ⟨"J9", "small", ⟨10, 1/2⟩, 0, 1⟩] =
    .error ⟨"Error", "UNASSIGNED JOBS STILL IN QUEUE!!!!"⟩ := by
  rfl

/-- C10: when both the employee pool and the job list are empty,
`assignJobLoads` returns the empty list and raises no error, despite the
empty pool: `0 % 0` is `NaN` in JS, so `isEvenQueue` is false, the
leftover is `0 − 1·0 = 0` (not strictly positive), the loop runs over an
empty `jobLoads`, and the final queue is empty. -/
theorem assignJobLoads_empty_empty :
    assignJobLoads [] [] = .ok [] := by
  rfl

/-- C3: for every vehicle whose size has a matching parking rate, with
`fuelPct = level × 100`: refuelling happens iff `0 ≤ fuelPct ≤ 10` (both
bounds inclusive), in which case `fuelAdded = capacity − capacity·level`
and the fuel fee is `fuelAdded × fuelPricePerUnit`; for any other
`fuelPct` the units and fee are 0; and the priced job's `netTotal` is
always the fuel fee plus the parking fee. -/
theorem fees_refuel_rule (parkingRates : List ParkingRate)
    (fuelPricePerUnit : ℚ) (car : Vehicle) (firstRate : ParkingRate)
    (hrate : (parkingRates.filter fun x => x.size == car.size).head? = some firstRate) :
    ((0 ≤ car.fuel.level * 100 ∧ car.fuel.level * 100 ≤ 10) →
      calculateUnitsToFuel fuelPricePerUnit car =
        ⟨car.fuel.capacity - car.fuel.capacity * car.fuel.level,
         (car.fuel.capacity - car.fuel.capacity * car.fuel.level) * fuelPricePerUnit⟩) ∧
    (¬(0 ≤ car.fuel.level * 100 ∧ car.fuel.level * 100 ≤ 10) →
      calculateUnitsToFuel fuelPricePerUnit car = ⟨0, 0⟩) ∧
    calculateServiceFees parkingRates fuelPricePerUnit [car] = .ok
      [{ licencePlate := car.licencePlate, size := car.size, fuel := car.fuel,
         fuelAdded := (calculateUnitsToFuel fuelPricePerUnit car).unitsToFuel,
         netTotal := (calculateUnitsToFuel fuelPricePerUnit car).totalFuelPrice
           + firstRate.rate }] := by
  refine ⟨?_, ?_, ?_⟩
  · intro h
    unfold calculateUnitsToFuel
    rw [if_pos ⟨h.2, h.1⟩]
  · intro hnot
    unfold calculateUnitsToFuel
    rw [if_neg (fun hc => hnot ⟨hc.2, hc.1⟩)]
  · have hp : priceCar parkingRates fuelPricePerUnit car = .ok
        { licencePlate := car.licencePlate, size := car.size, fuel := car.fuel,
          fuelAdded := (calculateUnitsToFuel fuelPricePerUnit car).unitsToFuel,
          netTotal := (calculateUnitsToFuel fuelPricePerUnit car).totalFuelPrice
            + firstRate.rate } := by
      unfold priceCar
      rw [hrate]
    unfold calculateServiceFees
    rw [hp]
    rfl

/-- Witness for C3 at vehicle A of the repository's own test: large car,
capacity 10, level 0.1 → fuelAdded 9, netTotal 35 + 9·1.75 = 50.75. -/
theorem fees_refuel_rule_witness :
    ((defaultParkingRates.filter fun x =>
        x.size == (⟨"A", "large", ⟨10, 1/10⟩⟩ : Vehicle).size).head? =
      some ⟨"large", 35⟩) ∧
    calculateServiceFees defaultParkingRates defaultFuelPricePerUnit
      [⟨"A", "large", ⟨10, 1/10⟩⟩] = .ok [⟨"A", "large", ⟨10, 1/10⟩, 9, 203/4⟩] := by
  constructor
  · decide
  · have h := (fees_refuel_rule defaultParkingRates defaultFuelPricePerUnit
      ⟨"A", "large", ⟨10, 1/10⟩⟩ ⟨"large", 35⟩ (by decide)).2.2
    rw [h]
    norm_num [calculateUnitsToFuel, defaultFuelPricePerUnit]

/-- C4 counterexample: the claim says a `ConfigError` is raised when a
vehicle's size has no matching rate; the code instead crashes with a
`TypeError` (reading `.rate` of `undefined`) — no `ConfigError` class
exists anywhere in the source. -/
theorem unmatched_size_raises_typeerror_not_configerror :
    calculateServiceFees defaultParkingRates defaultFuelPricePerUnit
        [⟨"M", "medium", ⟨10, 1/2⟩⟩] =
      .error ⟨"TypeError", "Cannot read properties of undefined (reading 'rate')"⟩ ∧
    ("TypeError" : String) ≠ "ConfigError" :=
  ⟨rfl, by decide⟩

/-- C4 (amended): when a vehicle's size has no matching parking rate the
fee calculator throws a `TypeError`, and when the employee pool is empty
with a nonempty job list `assignJobLoads` throws the generic
unassigned-jobs `Error`; both aborts yield no partial output (the
`Except` carries no result).  No `ConfigError` exists, and these are not
the only failures (see C1). -/
theorem fatal_errors_abort_batch (parkingRates : List ParkingRate)
    (fuelPricePerUnit : ℚ) (queue : List Vehicle) (car : Vehicle)
    (hmem : car ∈ queue)
    (hnone : (parkingRates.filter fun x => x.size == car.size).head? = none) :
    (∃ e, calculateServiceFees parkingRates fuelPricePerUnit queue = .error e ∧
      e.name = "TypeError") ∧
    (∀ jobs : List PricedJob, jobs ≠ [] →
      assignJobLoads [] jobs =
        .error ⟨"Error", "UNASSIGNED JOBS STILL IN QUEUE!!!!"⟩) := by
  constructor
  · obtain ⟨e, he⟩ :=
      calculateServiceFees_fails parkingRates fuelPricePerUnit queue car hmem hnone
    exact ⟨e, he,
      calculateServiceFees_error_name parkingRates fuelPricePerUnit queue e he⟩
  · intro jobs hne
    have hload : jobLoadsOf [] jobs = [] := by
      rw [jobLoadsOf_eq]
      rfl
    have hdist : distributeResult [] jobs = ([], sortQueue jobs) := by
      unfold distributeResult
      rw [hload]
      rfl
    refine assignJobLoads_of_distribute_pos hdist ?_
    intro hq
    have hq2 : sortQueue jobs = [] := hq
    have hlen := length_sortQueue jobs
    rw [hq2] at hlen
    exact hne (List.eq_nil_of_length_eq_zero hlen.symm)

/-- Witness for C4 (amended): a queue holding a small car and a car of
the unknown size "medium", against the default rate table. -/
theorem fatal_errors_abort_batch_witness :
    ((⟨"M", "medium", ⟨10, 1/2⟩⟩ : Vehicle) ∈
      [(⟨"S", "small", ⟨10, 1/2⟩⟩ : Vehicle), ⟨"M", "medium", ⟨10, 1/2⟩⟩]) ∧
    ((defaultParkingRates.filter fun x =>
        x.size == (⟨"M", "medium", ⟨10, 1/2⟩⟩ : Vehicle).size).head? = none) ∧
    (∃ e, calculateServiceFees defaultParkingRates defaultFuelPricePerUnit
        [⟨"S", "small", ⟨10, 1/2⟩⟩, ⟨"M", "medium", ⟨10, 1/2⟩⟩] = .error e ∧
      e.name = "TypeError") ∧
    (∀ jobs : List PricedJob, jobs ≠ [] →
      assignJobLoads [] jobs =
        .error ⟨"Error", "UNASSIGNED JOBS STILL IN QUEUE!!!!"⟩) :=
  ⟨by simp, by decide,
    fatal_errors_abort_batch defaultParkingRates defaultFuelPricePerUnit
      [⟨"S", "small", ⟨10, 1/2⟩⟩, ⟨"M", "medium", ⟨10, 1/2⟩⟩]
      ⟨"M", "medium", ⟨10, 1/2⟩⟩ (by simp) (by decide)⟩

/-- C5 counterexample: the claim's formula
`totalToPay = netTotal + netTotal × commissionPct/100` fails for a job
with `netTotal = 0.00001` and `commissionPct = 1 ≥ 0`: the `dividedBy`
call rounds the exact commission `0.0000001` to 5 decimal places
(global `BigNumber.config`), i.e. to 0, so the code pays `0.00001` while
the claimed formula gives `0.0000101`. -/
theorem commission_division_rounds :
    ((addEmployeeCommission
        [⟨"Tiny", 1, 1, "A", "large", ⟨10, 1/10⟩, 9, 1/100000⟩]).1.map
      fun j => j.totalToPay) = [1/100000] ∧
    (1/100000 : ℚ) ≠ 1/100000 + 1/100000 * 1 / 100 := by
  constructor
  · norm_num [addEmployeeCommission, bnDiv, round5]
  · norm_num

/-- C5 (amended): `addEmployeeCommission` preserves order and length;
for `commissionPct ≥ 0`,
`totalToPay = netTotal + round₅(netTotal × commissionPct / 100)` (the
division rounds to 5 decimal places per the global `BigNumber` config,
with no upper bound on the percentage); for `commissionPct < 0` the
commission is 0, `totalToPay = netTotal`, a warning is emitted for
exactly those jobs, and every job is still fully processed. -/
theorem addEmployeeCommission_characterization (jobs : List AssignedJob) :
    (∀ i : Nat, (addEmployeeCommission jobs).1[i]? = (jobs[i]?).map fun job =>
      ({ toAssignedJob := job,
         totalToPay := if job.commissionPct < 0 then job.netTotal
           else job.netTotal + bnDiv (job.netTotal * job.commissionPct) 100 } :
        PayableJob)) ∧
    (addEmployeeCommission jobs).1.length = jobs.length ∧
    (addEmployeeCommission jobs).2 =
      (jobs.filter fun j => decide (j.commissionPct < 0)).map commissionWarning := by
  induction jobs with
  | nil => exact ⟨fun i => rfl, rfl, rfl⟩
  | cons job rest ih =>
      obtain ⟨ih1, ih2, ih3⟩ := ih
      by_cases hneg : job.commissionPct < 0
      · refine ⟨fun i => ?_, ?_, ?_⟩
        · cases i with
          | zero => simp [addEmployeeCommission, hneg]
          | succ n =>
              simpa [addEmployeeCommission, hneg] using ih1 n
        · simp [addEmployeeCommission, hneg, ih2]
        · simp [addEmployeeCommission, hneg, ih3]
      · refine ⟨fun i => ?_, ?_, ?_⟩
        · cases i with
          | zero => simp [addEmployeeCommission, hneg]
          | succ n =>
              simpa [addEmployeeCommission, hneg] using ih1 n
        · simp [addEmployeeCommission, hneg, ih2]
        · simp [addEmployeeCommission, hneg, ih3]

/-- Witness for C5 (amended) on a two-job list: one job at 15% (the
repository's own test value, 50.75 → 58.3625) and one at −5%
(totalToPay stays 35 and its warning is the only one emitted). -/
theorem addEmployeeCommission_characterization_witness :
    (∀ i : Nat,
      (addEmployeeCommission
        [⟨"Alan Grant", 15, 2, "A", "large", ⟨10, 1/10⟩, 9, 203/4⟩,
         ⟨"Neg", -5, 1, "C", "large", ⟨10, 1/2⟩, 0, 35⟩]).1[i]? =
      (([⟨"Alan Grant", 15, 2, "A", "large", ⟨10, 1/10⟩, 9, 203/4⟩,
         ⟨"Neg", -5, 1, "C", "large", ⟨10, 1/2⟩, 0, 35⟩] :
          List AssignedJob)[i]?).map fun job =>
        ({ toAssignedJob := job,
           totalToPay := if job.commissionPct < 0 then job.netTotal
             else job.netTotal + bnDiv (job.netTotal * job.commissionPct) 100 } :
          PayableJob)) ∧
    (addEmployeeCommission
      [⟨"Alan Grant", 15, 2, "A", "large", ⟨10, 1/10⟩, 9, 203/4⟩,
       ⟨"Neg", -5, 1, "C", "large", ⟨10, 1/2⟩, 0, 35⟩]).1.length = 2 ∧
    (addEmployeeCommission
      [⟨"Alan Grant", 15, 2, "A", "large", ⟨10, 1/10⟩, 9, 203/4⟩,
       ⟨"Neg", -5, 1, "C", "large", ⟨10, 1/2⟩, 0, 35⟩]).2 =
      (([⟨"Alan Grant", 15, 2, "A", "large", ⟨10, 1/10⟩, 9, 203/4⟩,
         ⟨"Neg", -5, 1, "C", "large", ⟨10, 1/2⟩, 0, 35⟩] :
          List AssignedJob).filter fun j =>
        decide (j.commissionPct < 0)).map commissionWarning :=
  addEmployeeCommission_characterization
    [⟨"Alan Grant", 15, 2, "A", "large", ⟨10, 1/10⟩, 9, 203/4⟩,
     ⟨"Neg", -5, 1, "C", "large", ⟨10, 1/2⟩, 0, 35⟩]

/-- C6: if the job list is empty, `assignJobLoads` returns the empty
list for any nonempty pool; if the job list is nonempty but shorter than
the pool, the chunk size is pegged to 1, the call succeeds, and the jobs
are assigned one each to the highest-commission employees (the remaining
employees receive none, as the `zipWith` truncates at the job count). -/
theorem assignJobLoads_few_jobs (employees : List Employee)
    (queue : List PricedJob) (_hne : employees ≠ [])
    (hlt : queue.length < employees.length) :
    chunkSize queue.length employees.length = 1 ∧
    assignJobLoads employees queue = .ok
      (List.zipWith (fun e j => mkAssigned ⟨e.name, e.commissionPct, 1⟩ j)
        (sortEmployees employees) (sortQueue queue)) ∧
    (queue = [] → assignJobLoads employees queue = .ok []) := by
  have hchunk : chunkSize queue.length employees.length = 1 := by
    unfold chunkSize
    rw [if_neg (by omega)]
  have hloads : jobLoadsOf employees queue = (sortEmployees employees).map
      fun emp => ({ name := emp.name, commissionPct := emp.commissionPct,
                    numJobs := 1 } : JobLoad) := by
    rw [jobLoadsOf_eq, hchunk]
  have hone : ∀ l ∈ jobLoadsOf employees queue, l.numJobs = 1 := by
    rw [hloads]
    intro l hl
    obtain ⟨e, _, rfl⟩ := List.mem_map.mp hl
    rfl
  have hlen : (sortQueue queue).length ≤ (jobLoadsOf employees queue).length := by
    rw [hloads, List.length_map, length_sortQueue, length_sortEmployees]
    omega
  have hres : distributeResult employees queue =
      (List.zipWith mkAssigned (jobLoadsOf employees queue) (sortQueue queue), []) := by
    unfold distributeResult
    exact distribute_ones _ _ hone hlen
  have hmain : assignJobLoads employees queue = .ok
      (List.zipWith (fun e j => mkAssigned ⟨e.name, e.commissionPct, 1⟩ j)
        (sortEmployees employees) (sortQueue queue)) := by
    rw [assignJobLoads_of_distribute_nil hres, hloads, List.zipWith_map_left]
  refine ⟨hchunk, hmain, fun hq0 => ?_⟩
  subst hq0
  rw [hmain]
  simp [sortQueue]

/-- Witness for C6: one job, two employees — the single job goes to the
higher-commission employee with chunk size 1. -/
theorem assignJobLoads_few_jobs_witness :
    (([⟨"Ian Malcolm", 11⟩, ⟨"Alan Grant", 15⟩] : List Employee) ≠ []) ∧
    (([⟨"B", "small", ⟨10, 1/2⟩, 0, 8⟩] : List PricedJob).length <
      ([⟨"Ian Malcolm", 11⟩, ⟨"Alan Grant", 15⟩] : List Employee).length) ∧
    (chunkSize 1 2 = 1 ∧
     assignJobLoads [⟨"Ian Malcolm", 11⟩, ⟨"Alan Grant", 15⟩]
        [⟨"B", "small", ⟨10, 1/2⟩, 0, 8⟩] = .ok
        (List.zipWith (fun e j => mkAssigned ⟨e.name, e.commissionPct, 1⟩ j)
          (sortEmployees [⟨"Ian Malcolm", 11⟩, ⟨"Alan Grant", 15⟩])
          (sortQueue [⟨"B", "small", ⟨10, 1/2⟩, 0, 8⟩])) ∧
     (([⟨"B", "small", ⟨10, 1/2⟩, 0, 8⟩] : List PricedJob) = [] →
        assignJobLoads [⟨"Ian Malcolm", 11⟩, ⟨"Alan Grant", 15⟩]
          [⟨"B", "small", ⟨10, 1/2⟩, 0, 8⟩] = .ok [])) :=
  ⟨by decide, by decide,
    assignJobLoads_few_jobs [⟨"Ian Malcolm", 11⟩, ⟨"Alan Grant", 15⟩]
      [⟨"B", "small", ⟨10, 1/2⟩, 0, 8⟩] (by decide) (by decide)⟩

/-- C7 counterexample: the claim says no stage mutates the caller-owned
input collections; `assignJobLoads` does — after a successful call the
caller's queue array has been spliced empty, and the employee array has
been reordered in place by the sort. -/
theorem assignJobLoads_mutates_inputs :
    assignJobLoadsQueueAfter [⟨"Solo", 10⟩]
        [⟨"A", "large", ⟨10, 1/2⟩, 0, 42⟩] ≠
      [⟨"A", "large", ⟨10, 1/2⟩, 0, 42⟩] ∧
    assignJobLoadsEmployeesAfter [⟨"Ian", 11⟩, ⟨"Alan", 15⟩] ≠
      [⟨"Ian", 11⟩, ⟨"Alan", 15⟩] := by
  constructor
  · decide
  · decide

/-- C7 (amended): the three `map`-based stages return fresh collections
and leave their inputs unchanged, but `assignJobLoads` sorts the
caller's employee array in place and splices the caller's queue array,
leaving it empty whenever the call succeeds. -/
theorem stage_input_mutation (vehicles : List Vehicle)
    (assigned : List AssignedJob) (payable : List PayableJob)
    (employees : List Employee) (queue : List PricedJob)
    (out : List AssignedJob) (h : assignJobLoads employees queue = .ok out) :
    calculateServiceFeesQueueAfter vehicles = vehicles ∧
    addEmployeeCommissionInputAfter assigned = assigned ∧
    makeMePrettyInputAfter payable = payable ∧
    assignJobLoadsEmployeesAfter employees = sortEmployees employees ∧
    assignJobLoadsQueueAfter employees queue = [] :=
  ⟨rfl, rfl, rfl, rfl, (assignJobLoads_ok h).2⟩

/-- Witness for C7 (amended): one employee, one job; the call succeeds
and the queue array is left empty. -/
theorem stage_input_mutation_witness :
    (assignJobLoads [⟨"Solo", 10⟩] [⟨"A", "large", ⟨10, 1/2⟩, 0, 42⟩] =
      .ok [⟨"Solo", 10, 1, "A", "large", ⟨10, 1/2⟩, 0, 42⟩]) ∧
    (calculateServiceFeesQueueAfter [] = [] ∧
     addEmployeeCommissionInputAfter [] = [] ∧
     makeMePrettyInputAfter [] = [] ∧
     assignJobLoadsEmployeesAfter [⟨"Solo", 10⟩] = sortEmployees [⟨"Solo", 10⟩] ∧
     assignJobLoadsQueueAfter [⟨"Solo", 10⟩]
       [⟨"A", "large", ⟨10, 1/2⟩, 0, 42⟩] = []) :=
  ⟨rfl, stage_input_mutation [] [] [] [⟨"Solo", 10⟩]
    [⟨"A", "large", ⟨10, 1/2⟩, 0, 42⟩]
    [⟨"Solo", 10, 1, "A", "large", ⟨10, 1/2⟩, 0, 42⟩] rfl⟩

/-- C8: whenever `assignJobLoads` succeeds on a nonempty pool and a
nonempty job list, the first output record merges the head of the
stably-sorted employee list with the head of the stably-sorted job list:
the job with the highest `netTotal` is assigned to the employee with the
highest `commissionPct` (jobs are consumed off the front of the sorted
queue by the employees in sorted order). -/
theorem assignJobLoads_top_pairing (employees : List Employee)
    (queue : List PricedJob) (out : List AssignedJob)
    (hne : employees ≠ []) (hqne : queue ≠ [])
    (hok : assignJobLoads employees queue = .ok out) :
    ∃ e0 eRest j0 jRest tail,
      sortEmployees employees = e0 :: eRest ∧
      sortQueue queue = j0 :: jRest ∧
      out = mkAssigned ⟨e0.name, e0.commissionPct,
          chunkSize queue.length employees.length⟩ j0 :: tail ∧
      (∀ e ∈ employees, e.commissionPct ≤ e0.commissionPct) ∧
      (∀ j ∈ queue, j.netTotal ≤ j0.netTotal) := by
  have hsene : sortEmployees employees ≠ [] := by
    intro hnil
    apply hne
    have hlen := length_sortEmployees employees
    rw [hnil] at hlen
    exact List.eq_nil_of_length_eq_zero hlen.symm
  have hsqne : sortQueue queue ≠ [] := by
    intro hnil
    apply hqne
    have hlen := length_sortQueue queue
    rw [hnil] at hlen
    exact List.eq_nil_of_length_eq_zero hlen.symm
  obtain ⟨e0, eRest, hse⟩ := List.exists_cons_of_ne_nil hsene
  obtain ⟨j0, jRest, hsq⟩ := List.exists_cons_of_ne_nil hsqne
  have hcpos : 0 < chunkSize queue.length employees.length := by
    unfold chunkSize
    split
    next hgt =>
        exact Nat.div_pos (le_of_lt hgt)
          (List.length_pos.mpr hne)
    next => omega
  have hload2 : jobLoadsOf employees queue =
      ({ name := e0.name, commissionPct := e0.commissionPct,
         numJobs := chunkSize queue.length employees.length } : JobLoad) ::
      eRest.map (fun emp =>
        ({ name := emp.name, commissionPct := emp.commissionPct,
           numJobs := chunkSize queue.length employees.length } : JobLoad)) := by
    rw [jobLoadsOf_eq, hse, List.map_cons]
  obtain ⟨tail, htail⟩ := distribute_cons_head
    ({ name := e0.name, commissionPct := e0.commissionPct,
       numJobs := chunkSize queue.length employees.length } : JobLoad)
    (eRest.map (fun emp =>
      ({ name := emp.name, commissionPct := emp.commissionPct,
         numJobs := chunkSize queue.length employees.length } : JobLoad)))
    j0 jRest hcpos
  have hdr : (distributeResult employees queue).1 =
      mkAssigned ⟨e0.name, e0.commissionPct,
        chunkSize queue.length employees.length⟩ j0 :: tail := by
    unfold distributeResult
    rw [hload2, hsq]
    exact htail
  refine ⟨e0, eRest, j0, jRest, tail, hse, hsq, ?_, ?_, ?_⟩
  · rw [← (assignJobLoads_ok hok).1, hdr]
  · exact sortEmployees_head_ge employees e0 eRest hse
  · exact sortQueue_head_ge queue j0 jRest hsq

/-- Witness for C8: one employee and one job; the call succeeds and the
single output record pairs them with chunk size 1. -/
theorem assignJobLoads_top_pairing_witness :
    (([⟨"Grant", 12⟩] : List Employee) ≠ []) ∧
    (([⟨"Z", "small", ⟨10, 1/2⟩, 0, 7⟩] : List PricedJob) ≠ []) ∧
    (assignJobLoads [⟨"Grant", 12⟩] [⟨"Z", "small", ⟨10, 1/2⟩, 0, 7⟩] =
      .ok [⟨"Grant", 12, 1, "Z", "small", ⟨10, 1/2⟩, 0, 7⟩]) ∧
    ∃ (e0 : Employee) (j0 : PricedJob),
      (∀ e ∈ ([⟨"Grant", 12⟩] : List Employee),
        e.commissionPct ≤ e0.commissionPct) ∧
      (∀ j ∈ ([⟨"Z", "small", ⟨10, 1/2⟩, 0, 7⟩] : List PricedJob),
        j.netTotal ≤ j0.netTotal) := by
  refine ⟨by decide, by decide, rfl, ?_⟩
  obtain ⟨e0, eRest, j0, jRest, tail, h1, h2, h3, h4, h5⟩ :=
    assignJobLoads_top_pairing [⟨"Grant", 12⟩]
      [⟨"Z", "small", ⟨10, 1/2⟩, 0, 7⟩]
      [⟨"Grant", 12, 1, "Z", "small", ⟨10, 1/2⟩, 0, 7⟩]
      (by decide) (by decide) rfl
  exact ⟨e0, j0, h4, h5⟩

/-- C9: `makeMePretty` is a pure projection preserving order and length:
the i-th receipt holds exactly the i-th job's `licencePlate`, its
employee name (source field `employee`, filled from `name`), its
`fuelAdded` and its `totalToPay` as `price`; the `toNumber` conversion
to plain JS numbers happens only at this boundary. -/
theorem makeMePretty_projection (jobs : List PayableJob) :
    (makeMePretty jobs).length = jobs.length ∧
    ∀ i : Nat, (makeMePretty jobs)[i]? = (jobs[i]?).map fun job =>
      ({ licencePlate := job.licencePlate, employee := job.name,
         fuelAdded := job.fuelAdded, price := job.totalToPay } : Receipt) := by
  refine ⟨by simp [makeMePretty], fun i => ?_⟩
  unfold makeMePretty
  rw [List.getElem?_map]

/-- Witness for C9 on the repository's own presenter test fixture. -/
theorem makeMePretty_projection_witness :
    (makeMePretty [⟨⟨"Alan Grant", 15, 2, "A", "large", ⟨10, 1/10⟩, 9, 203/4⟩,
        4669/80⟩]).length = 1 ∧
    ∀ i : Nat,
      (makeMePretty [⟨⟨"Alan Grant", 15, 2, "A", "large", ⟨10, 1/10⟩, 9, 203/4⟩,
          4669/80⟩])[i]? =
      (([⟨⟨"Alan Grant", 15, 2, "A", "large", ⟨10, 1/10⟩, 9, 203/4⟩,
          4669/80⟩] : List PayableJob)[i]?).map fun job =>
        ({ licencePlate := job.licencePlate, employee := job.name,
           fuelAdded := job.fuelAdded, price := job.totalToPay } : Receipt) :=
  makeMePretty_projection
    [⟨⟨"Alan Grant", 15, 2, "A", "large", ⟨10, 1/10⟩, 9, 203/4⟩, 4669/80⟩]

end JurassicParking
